import Mathlib

/-!
# Sentiment Hub — shallow embedding and verification

Shallow embedding of the data-processing logic of the `sentiment-hub`
repository:

* the `SentimentProcessor` normalization/grouping pipeline of
  `src/sentiment-hub/src/App.jsx` (here suffixed `A`),
* the variant pipeline and the Gemini row enricher of
  `src/unnamed/part_001` (here suffixed `B`),
* the fixed-threshold polarity/subjectivity classification shared
  verbatim by both files.

JavaScript values are modelled by `JSVal`: finite numbers are rationals
(the thresholds 0.1 and 0.5 and all data of interest are exactly
representable), `NaN` is a separate constructor, and non-finite numbers
(`Infinity`) are outside the value space, so the model's `Number(...)`
maps the strings `"Infinity"`/`"-Infinity"` (and non-decimal numeric
literals such as hex) to `NaN`; no claim depends on those corner
literals.  Rows (JS objects) are association lists observed through
field lookup; JS object key order is not modelled, only field contents.
The external Gemini HTTP endpoint is an oracle parameter giving, per
extracted text value, the observable outcome of one call.
-/

namespace SentimentHub

/-- A scalar JavaScript value: a finite number (modelled as a
rational), `NaN`, a string, a boolean, `null`, or `undefined`. -/
inductive JSAtom where
  | num (q : ℚ)
  | nan
  | str (s : String)
  | bool (b : Bool)
  | null
  | undef
deriving DecidableEq, Repr

/-- A JavaScript value as it occurs in this pipeline: a scalar, or an
array of scalars (the only arrays this data flow produces are
named-entity lists, whose elements are scalars; nested arrays and
objects-as-field-values are outside the modelled value space). -/
inductive JSVal where
  | num (q : ℚ)
  | nan
  | str (s : String)
  | bool (b : Bool)
  | null
  | undef
  | arr (elems : List JSAtom)
deriving DecidableEq, Repr

/-- JavaScript truthiness: `false`, `0`, `NaN`, `""`, `null`,
`undefined` are falsy; every other value (arrays included) is truthy. -/
def truthy : JSVal → Bool
  | .num q => decide (q ≠ 0)
  | .nan => false
  | .str s => !s.isEmpty
  | .bool b => b
  | .null => false
  | .undef => false
  | .arr _ => true

/-- JavaScript `a || b`: `a` if `a` is truthy, else `b`. -/
def jsOr (a b : JSVal) : JSVal := if truthy a then a else b

/-! ## `Number(...)` coercion

`toNumber v = some q` models `Number(v)` evaluating to the finite number
`q`; `toNumber v = none` models `Number(v)` evaluating to `NaN`.
String coercion follows the JS numeric-literal grammar for decimal
literals: optional surrounding whitespace, an empty string is `0`,
optional sign, integer digits and/or a fractional part, optional
decimal exponent. -/

/-- Is `c` a decimal digit? -/
def isDigitChar (c : Char) : Bool := decide ('0' ≤ c) && decide (c ≤ '9')

/-- The numeric value of a list of decimal digits (most significant first). -/
def digitsToNat (ds : List Char) : Nat :=
  ds.foldl (fun n c => 10 * n + (c.toNat - 48)) 0

/-- Parse the exponent part (after `e`/`E`) and apply it to `base`. -/
def parseExponent (base : ℚ) (cs : List Char) : Option ℚ :=
  match cs with
  | '+' :: ds =>
      if !ds.isEmpty && ds.all isDigitChar then some (base * 10 ^ digitsToNat ds) else none
  | '-' :: ds =>
      if !ds.isEmpty && ds.all isDigitChar then some (base / 10 ^ digitsToNat ds) else none
  | ds =>
      if !ds.isEmpty && ds.all isDigitChar then some (base * 10 ^ digitsToNat ds) else none

/-- After the mantissa digits: end of input, or an exponent part. -/
def parseAfterDigits (base : ℚ) (rest : List Char) : Option ℚ :=
  match rest with
  | [] => some base
  | 'e' :: t => parseExponent base t
  | 'E' :: t => parseExponent base t
  | _ => none

/-- Parse an unsigned decimal numeric literal. -/
def parseUnsignedNum (cs : List Char) : Option ℚ :=
  let ip := cs.takeWhile isDigitChar
  let r1 := cs.dropWhile isDigitChar
  match r1 with
  | '.' :: r2 =>
      let fp := r2.takeWhile isDigitChar
      let r3 := r2.dropWhile isDigitChar
      if ip.isEmpty && fp.isEmpty then none
      else parseAfterDigits ((digitsToNat ip : ℚ) + (digitsToNat fp : ℚ) / 10 ^ fp.length) r3
  | _ => if ip.isEmpty then none else parseAfterDigits (digitsToNat ip : ℚ) r1

/-- `Number(s)` for a string `s`: trim, empty is `0`, optional sign,
then an unsigned decimal literal; anything else is `NaN`. -/
def parseNumber (s : String) : Option ℚ :=
  let t := s.trim
  if t.isEmpty then some 0
  else
    match t.toList with
    | '+' :: cs => parseUnsignedNum cs
    | '-' :: cs => (parseUnsignedNum cs).map (fun q => -q)
    | cs => parseUnsignedNum cs

/-- `Number(v)`.  Arrays coerce through their string form: `[]` is `0`,
a one-element array coerces like its element (with `null`/`undefined`
elements joining to the empty string, hence `0`, and booleans producing
the non-numeric strings `"true"`/`"false"`), and an array of two or
more elements contains a comma, hence `NaN`. -/
def toNumber : JSVal → Option ℚ
  | .num q => some q
  | .nan => none
  | .str s => parseNumber s
  | .bool b => some (if b then 1 else 0)
  | .null => some 0
  | .undef => none
  | .arr [] => some 0
  | .arr [a] =>
      match a with
      | .num q => some q
      | .nan => none
      | .str s => parseNumber s
      | .bool _ => none
      | .null => some 0
      | .undef => some 0
  | .arr (_ :: _ :: _) => none

/-- The global `isNaN(v)`: `Number(v)` is `NaN`. -/
def jsIsNaN (v : JSVal) : Bool := (toNumber v).isNone

/-- Wrap the outcome of `Number(...)` back into a value. -/
def numOfOpt : Option ℚ → JSVal
  | some q => .num q
  | none => .nan

/-- JS relational `v > q` against a number, via `Number` coercion on
the left operand (comparisons involving `NaN` are false). -/
def jsGtNum (v : JSVal) (q : ℚ) : Bool :=
  match toNumber v with
  | some x => decide (x > q)
  | none => false

/-- JS relational `v < q` against a number, via `Number` coercion on
the left operand (comparisons involving `NaN` are false). -/
def jsLtNum (v : JSVal) (q : ℚ) : Bool :=
  match toNumber v with
  | some x => decide (x < q)
  | none => false

/-! ## Rows -/

/-- A CSV row / JS object: an association list from field names to
values, observed through `getField`. -/
abbrev Row : Type := List (String × JSVal)

/-- `row.k`: the first binding of `k`, or `undefined` when absent. -/
def getField : Row → String → JSVal
  | [], _ => .undef
  | (k', v) :: rest, k => if k' = k then v else getField rest k

/-- `{...row, k: v}` observed through `getField`: bind `k` to `v`,
every other field unchanged. -/
def setField (r : Row) (k : String) (v : JSVal) : Row :=
  (k, v) :: r.filter (fun p => p.1 ≠ k)

/-- Is the value `undefined`? -/
def isUndef : JSVal → Bool
  | .undef => true
  | _ => false

@[simp] theorem getField_nil (k : String) : getField ([] : Row) k = .undef := rfl

@[simp] theorem getField_cons (k₀ : String) (v₀ : JSVal) (rest : Row) (k : String) :
    getField ((k₀, v₀) :: rest) k = if k₀ = k then v₀ else getField rest k := rfl

theorem getField_setField_same (r : Row) (k : String) (v : JSVal) :
    getField (setField r k v) k = v := by
  simp [setField]

theorem getField_filter_ne (r : Row) (k k' : String) (h : k' ≠ k) :
    getField (r.filter (fun p => p.1 ≠ k)) k' = getField r k' := by
  induction r with
  | nil => rfl
  | cons p rest ih =>
      obtain ⟨k₀, v₀⟩ := p
      simp only [decide_not] at ih ⊢
      by_cases hk : k₀ = k
      · have hne : ¬ (k = k') := fun hh => h hh.symm
        simp [List.filter_cons, hk, hne, ih]
      · by_cases hk' : k₀ = k'
        · simp [List.filter_cons, hk, hk', h, ih]
        · simp [List.filter_cons, hk, hk', ih]

theorem getField_setField_ne (r : Row) (k k' : String) (v : JSVal) (h : k' ≠ k) :
    getField (setField r k v) k' = getField r k' := by
  have hne : ¬ (k = k') := fun hh => h hh.symm
  simp only [setField, getField, if_neg hne]
  exact getField_filter_ne r k k' h

/-! ## The shared fixed-threshold classification

Both `App.jsx` and `part_001` use textually identical `groupBy` key
functions; they are defined once here and used for both pipelines. -/

/-- The polarity band key: `item.polarity > 0.1` is `"Positive"`,
`item.polarity < -0.1` is `"Negative"`, otherwise `"Neutral"`.  The
thresholds are written `mkRat` so that the kernel can evaluate them;
`mkRat 1 10 = 1/10` (see `mkRat_one_ten`). -/
def polarityKey (r : Row) : String :=
  if jsGtNum (getField r "polarity") (mkRat 1 10) then "Positive"
  else if jsLtNum (getField r "polarity") (-(mkRat 1 10)) then "Negative"
  else "Neutral"

/-- The subjectivity band key: `item.subjectivity > 0.5` is
`"Subjective"`, otherwise `"Objective"`. -/
def subjectivityKey (r : Row) : String :=
  if jsGtNum (getField r "subjectivity") (mkRat 1 2) then "Subjective" else "Objective"

/-- The combined key: `` `${polarityLabel} & ${subjectivityLabel}` ``. -/
def combinedKey (r : Row) : String :=
  polarityKey r ++ " & " ++ subjectivityKey r

/-- `_.groupBy` observed at one key: the rows whose key is `k`, in
input order (lodash `groupBy` builds exactly these lists, indexed by
key). -/
def groupRows (key : Row → String) (rows : List Row) (k : String) : List Row :=
  rows.filter (fun r => key r = k)

/-! ## Normalization (`normalizedData`) -/

/-- The sentiment-text fallback common to both pipelines:
`row.sentiment || row.Sentiment || row.text || row.Text || 'N/A'`. -/
def sentValue (r : Row) : JSVal :=
  jsOr (getField r "sentiment") (jsOr (getField r "Sentiment")
    (jsOr (getField r "text") (jsOr (getField r "Text") (.str "N/A"))))

/-- `App.jsx` polarity source: `row.polarity || row.Polarity || 0`. -/
def polValueA (r : Row) : JSVal :=
  jsOr (getField r "polarity") (jsOr (getField r "Polarity") (.num 0))

/-- `App.jsx` subjectivity source:
`row.subjectivity || row.Subjectivity || 0`. -/
def subValueA (r : Row) : JSVal :=
  jsOr (getField r "subjectivity") (jsOr (getField r "Subjectivity") (.num 0))

/-- One normalized row of `App.jsx`: `{...row, polarity: Number(...),
subjectivity: Number(...), sentiment: ...}`, every source value read
from the original row. -/
def normalizeRowA (r : Row) : Row :=
  setField (setField (setField r "polarity" (numOfOpt (toNumber (polValueA r))))
    "subjectivity" (numOfOpt (toNumber (subValueA r)))) "sentiment" (sentValue r)

/-- One normalized row of `part_001`: `{...row,
polarity: Number(row.polarity), subjectivity: Number(row.subjectivity),
sentiment: ...}`. -/
def normalizeRowB (r : Row) : Row :=
  setField (setField (setField r "polarity" (numOfOpt (toNumber (getField r "polarity"))))
    "subjectivity" (numOfOpt (toNumber (getField r "subjectivity"))) ) "sentiment" (sentValue r)

/-- The filter both pipelines apply after normalization:
`!isNaN(row.polarity) && !isNaN(row.subjectivity)`. -/
def validRow (r : Row) : Bool :=
  !jsIsNaN (getField r "polarity") && !jsIsNaN (getField r "subjectivity")

/-- `normalizedData` of `App.jsx`: map then filter. -/
def normalizedDataA (data : List Row) : List Row :=
  (data.map normalizeRowA).filter validRow

/-- `normalizedData` of `part_001`: map then filter. -/
def normalizedDataB (data : List Row) : List Row :=
  (data.map normalizeRowB).filter validRow

/-! ## `processedData` -/

/-- The non-null result of `processedData`: the error record, or the
record `{total, polarityGroups, subjectivityGroups, combinedGroups,
rawData}` — the three group objects are `_.groupBy` of `rawData` under
the shared keys (see `groupRows`), so `rawData` and `total` determine
the whole record. -/
inductive ProcResult where
  | err (msg : String)
  | ok (total : Nat) (rawData : List Row)
deriving DecidableEq, Repr

/-- `App.jsx` column check: some row has `polarity` or `Polarity`. -/
def hasPolarityA (data : List Row) : Bool :=
  data.any fun r => !isUndef (getField r "polarity") || !isUndef (getField r "Polarity")

/-- `App.jsx` column check: some row has `subjectivity` or
`Subjectivity`. -/
def hasSubjectivityA (data : List Row) : Bool :=
  data.any fun r => !isUndef (getField r "subjectivity") || !isUndef (getField r "Subjectivity")

/-- `part_001` column check: some row has `polarity`. -/
def hasPolarityB (data : List Row) : Bool :=
  data.any fun r => !isUndef (getField r "polarity")

/-- `part_001` column check: some row has `subjectivity`. -/
def hasSubjectivityB (data : List Row) : Bool :=
  data.any fun r => !isUndef (getField r "subjectivity")

/-- The error message both pipelines return when a column is missing. -/
def missingColumnsMsg : String := "CSV must contain polarity and subjectivity columns"

/-- `processedData` of `App.jsx`: `none` for empty data (the `null`
early return), the error record when a required column is missing in
every row, else the grouped record. -/
def processedDataA (data : List Row) : Option ProcResult :=
  if data.isEmpty then none
  else if !hasPolarityA data || !hasSubjectivityA data then some (.err missingColumnsMsg)
  else some (.ok (normalizedDataA data).length (normalizedDataA data))

/-- `processedData` of `part_001`. -/
def processedDataB (data : List Row) : Option ProcResult :=
  if data.isEmpty then none
  else if !hasPolarityB data || !hasSubjectivityB data then some (.err missingColumnsMsg)
  else some (.ok (normalizedDataB data).length (normalizedDataB data))

/-! ## The Gemini row enricher (`part_001`) -/

/-- The observable outcome of one `analyzeTextWithGemini` call, as seen
by `processRowsWithGemini`:

* `fail` — the `fetch` rejected or `!response.ok`, so
  `analyzeTextWithGemini` threw (caught by the per-row `try/catch`);
* `unparseable` — the HTTP call succeeded but the reply text was not
  valid JSON, so `analyzeTextWithGemini` itself returned the defaults
  `{polarity: 0, subjectivity: 0, named_entities: []}`;
* `ok p s e` — the reply parsed as JSON; `p`, `s`, `e` are the
  `polarity`, `subjectivity` and `named_entities` fields of the parsed
  value (`undef` when the parsed JSON lacks the field). -/
inductive GeminiOutcome where
  | fail
  | unparseable
  | ok (polarity subjectivity namedEntities : JSVal)

/-- The value `analyzeTextWithGemini` produces, or a thrown error:
`Except.error` models the throw on HTTP failure, `Except.ok` the
returned triple. -/
def analyzeResult : GeminiOutcome → Except Unit (JSVal × JSVal × JSVal)
  | .fail => .error ()
  | .unparseable => .ok (.num 0, .num 0, .arr [])
  | .ok p s e => .ok (p, s, e)

/-- The text extracted from a row:
`row.sentiment || row.Sentiment || row.text || row.Text || ''`. -/
def extractText (r : Row) : JSVal :=
  jsOr (getField r "sentiment") (jsOr (getField r "Sentiment")
    (jsOr (getField r "text") (jsOr (getField r "Text") (.str ""))))

/-- `{...row, polarity: p, subjectivity: s, named_entities: e}`. -/
def mergeAnalysis (r : Row) (p s e : JSVal) : Row :=
  setField (setField (setField r "polarity" p) "subjectivity" s) "named_entities" e

/-- One iteration of the `processRowsWithGemini` loop: skip the call
when the extracted text is falsy, otherwise call the oracle; merge the
returned fields, or the neutral defaults on throw. -/
def enrichRow (oracle : JSVal → GeminiOutcome) (r : Row) : Row :=
  let text := extractText r
  if !truthy text then mergeAnalysis r (.num 0) (.num 0) (.arr [])
  else
    match analyzeResult (oracle text) with
    | .error _ => mergeAnalysis r (.num 0) (.num 0) (.arr [])
    | .ok (p, s, e) => mergeAnalysis r p s e

/-- `processRowsWithGemini`: one output row per input row, in order.
The sequential `await` loop carries no state between rows, so it is a
map over the data. -/
def processRowsWithGemini (oracle : JSVal → GeminiOutcome) (data : List Row) : List Row :=
  data.map (enrichRow oracle)

/-! ## Derived predicates -/

/-- Is the value a finite number? -/
def isNumV : JSVal → Bool
  | .num _ => true
  | _ => false

/-- A `part_001` row survives normalization exactly when both its
`polarity` and its `subjectivity` value coerce to a number. -/
def coercibleB (r : Row) : Bool :=
  (toNumber (getField r "polarity")).isSome && (toNumber (getField r "subjectivity")).isSome

/-- An `App.jsx` row survives normalization exactly when both fallback
values coerce to a number. -/
def coercibleA (r : Row) : Bool :=
  (toNumber (polValueA r)).isSome && (toNumber (subValueA r)).isSome

/-- The six combined labels, polarity-major. -/
def combinedLabels : List String :=
  ["Positive & Subjective", "Positive & Objective",
   "Negative & Subjective", "Negative & Objective",
   "Neutral & Subjective", "Neutral & Objective"]

/-! ## Field lemmas -/

theorem jsIsNaN_numOfOpt (o : Option ℚ) : jsIsNaN (numOfOpt o) = o.isNone := by
  cases o <;> rfl

theorem getField_normalizeRowB_polarity (r : Row) :
    getField (normalizeRowB r) "polarity" = numOfOpt (toNumber (getField r "polarity")) := by
  unfold normalizeRowB
  rw [getField_setField_ne _ _ _ _ (by decide), getField_setField_ne _ _ _ _ (by decide),
    getField_setField_same]

theorem getField_normalizeRowB_subjectivity (r : Row) :
    getField (normalizeRowB r) "subjectivity" = numOfOpt (toNumber (getField r "subjectivity")) := by
  unfold normalizeRowB
  rw [getField_setField_ne _ _ _ _ (by decide), getField_setField_same]

theorem getField_normalizeRowA_polarity (r : Row) :
    getField (normalizeRowA r) "polarity" = numOfOpt (toNumber (polValueA r)) := by
  unfold normalizeRowA
  rw [getField_setField_ne _ _ _ _ (by decide), getField_setField_ne _ _ _ _ (by decide),
    getField_setField_same]

theorem getField_normalizeRowA_subjectivity (r : Row) :
    getField (normalizeRowA r) "subjectivity" = numOfOpt (toNumber (subValueA r)) := by
  unfold normalizeRowA
  rw [getField_setField_ne _ _ _ _ (by decide), getField_setField_same]

theorem getField_mergeAnalysis_polarity (r : Row) (p s e : JSVal) :
    getField (mergeAnalysis r p s e) "polarity" = p := by
  unfold mergeAnalysis
  rw [getField_setField_ne _ _ _ _ (by decide), getField_setField_ne _ _ _ _ (by decide),
    getField_setField_same]

theorem getField_mergeAnalysis_subjectivity (r : Row) (p s e : JSVal) :
    getField (mergeAnalysis r p s e) "subjectivity" = s := by
  unfold mergeAnalysis
  rw [getField_setField_ne _ _ _ _ (by decide), getField_setField_same]

theorem getField_mergeAnalysis_entities (r : Row) (p s e : JSVal) :
    getField (mergeAnalysis r p s e) "named_entities" = e := by
  unfold mergeAnalysis
  rw [getField_setField_same]

theorem getField_mergeAnalysis_other (r : Row) (p s e : JSVal) (k : String)
    (h1 : k ≠ "polarity") (h2 : k ≠ "subjectivity") (h3 : k ≠ "named_entities") :
    getField (mergeAnalysis r p s e) k = getField r k := by
  unfold mergeAnalysis
  rw [getField_setField_ne _ _ _ _ h3, getField_setField_ne _ _ _ _ h2,
    getField_setField_ne _ _ _ _ h1]

/-! ## Normalization lemmas -/

theorem validRow_normalizeRowB (r : Row) : validRow (normalizeRowB r) = coercibleB r := by
  unfold validRow coercibleB
  rw [getField_normalizeRowB_polarity, getField_normalizeRowB_subjectivity,
    jsIsNaN_numOfOpt, jsIsNaN_numOfOpt]
  cases toNumber (getField r "polarity") <;> cases toNumber (getField r "subjectivity") <;> rfl

theorem validRow_normalizeRowA (r : Row) : validRow (normalizeRowA r) = coercibleA r := by
  unfold validRow coercibleA
  rw [getField_normalizeRowA_polarity, getField_normalizeRowA_subjectivity,
    jsIsNaN_numOfOpt, jsIsNaN_numOfOpt]
  cases toNumber (polValueA r) <;> cases toNumber (subValueA r) <;> rfl

theorem normalizedDataB_eq_filter_map (d : List Row) :
    normalizedDataB d = (d.filter coercibleB).map normalizeRowB := by
  induction d with
  | nil => rfl
  | cons r rest ih =>
      unfold normalizedDataB at ih ⊢
      rw [List.map_cons, List.filter_cons, List.filter_cons, validRow_normalizeRowB]
      cases hc : coercibleB r <;> simp [hc, ih]

theorem normalizedDataA_eq_filter_map (d : List Row) :
    normalizedDataA d = (d.filter coercibleA).map normalizeRowA := by
  induction d with
  | nil => rfl
  | cons r rest ih =>
      unfold normalizedDataA at ih ⊢
      rw [List.map_cons, List.filter_cons, List.filter_cons, validRow_normalizeRowA]
      cases hc : coercibleA r <;> simp [hc, ih]

/-- Every surviving `part_001` row carries finite numbers in both
threshold columns. -/
theorem mem_normalizedDataB_numeric (d : List Row) (r : Row) (hr : r ∈ normalizedDataB d) :
    (∃ p : ℚ, getField r "polarity" = .num p) ∧
    (∃ s : ℚ, getField r "subjectivity" = .num s) := by
  rw [normalizedDataB_eq_filter_map] at hr
  obtain ⟨x, hx, rfl⟩ := List.mem_map.mp hr
  have hc : coercibleB x = true := List.of_mem_filter hx
  unfold coercibleB at hc
  rw [Bool.and_eq_true, Option.isSome_iff_exists, Option.isSome_iff_exists] at hc
  obtain ⟨⟨p, hp⟩, ⟨s, hs⟩⟩ := hc
  constructor
  · exact ⟨p, by rw [getField_normalizeRowB_polarity, hp]; rfl⟩
  · exact ⟨s, by rw [getField_normalizeRowB_subjectivity, hs]; rfl⟩

/-! ## Partition counting lemmas -/

theorem sum_indicator_of_not_mem (s : String) (ks : List String) (h : s ∉ ks) :
    (ks.map (fun k => if s = k then 1 else 0)).sum = 0 := by
  induction ks with
  | nil => rfl
  | cons k t ih =>
      have h1 : s ≠ k := fun hh => h (hh ▸ List.mem_cons_self k t)
      have h2 : s ∉ t := fun hh => h (List.mem_cons_of_mem k hh)
      simp [h1, ih h2]

theorem sum_indicator_of_mem (s : String) (ks : List String) (h : s ∈ ks) (hnd : ks.Nodup) :
    (ks.map (fun k => if s = k then 1 else 0)).sum = 1 := by
  induction ks with
  | nil => cases h
  | cons k t ih =>
      rcases List.mem_cons.mp h with h1 | h1
      · subst h1
        have : s ∉ t := (List.nodup_cons.mp hnd).1
        simp [sum_indicator_of_not_mem s t this]
      · have hns : s ≠ k := by
          intro hh
          subst hh
          exact (List.nodup_cons.mp hnd).1 h1
        simp only [List.map_cons, List.sum_cons, if_neg hns,
          ih h1 (List.nodup_cons.mp hnd).2]

theorem sum_map_add_nat (ks : List String) (f g : String → Nat) :
    (ks.map (fun k => f k + g k)).sum = (ks.map f).sum + (ks.map g).sum := by
  induction ks with
  | nil => rfl
  | cons k t ih => simp only [List.map_cons, List.sum_cons, ih]; omega

/-- Summing the sizes of the `groupBy` classes over a duplicate-free
list of keys that covers every row gives back the number of rows. -/
theorem sum_groupRows_length (key : Row → String) (ks : List String) (N : List Row)
    (hnd : ks.Nodup) (hcov : ∀ r ∈ N, key r ∈ ks) :
    (ks.map (fun k => (groupRows key N k).length)).sum = N.length := by
  induction N with
  | nil => simp [groupRows]
  | cons r T ih =>
      have hlen : ∀ k, (groupRows key (r :: T) k).length =
          (if key r = k then 1 else 0) + (groupRows key T k).length := by
        intro k
        unfold groupRows
        rw [List.filter_cons]
        by_cases h : key r = k
        · simp [h]
          omega
        · simp [h]
      simp only [hlen]
      rw [sum_map_add_nat, sum_indicator_of_mem (key r) ks (hcov r (List.mem_cons_self r T)) hnd,
        ih (fun x hx => hcov x (List.mem_cons_of_mem r hx))]
      simp [Nat.add_comm]

theorem polarityKey_mem (r : Row) : polarityKey r ∈ ["Positive", "Negative", "Neutral"] := by
  unfold polarityKey
  split_ifs <;> simp

theorem subjectivityKey_mem (r : Row) : subjectivityKey r ∈ ["Subjective", "Objective"] := by
  unfold subjectivityKey
  split_ifs <;> simp

theorem combinedKey_mem (r : Row) : combinedKey r ∈ combinedLabels := by
  unfold combinedKey polarityKey subjectivityKey combinedLabels
  split_ifs <;> simp

theorem mem_groupRows_iff (key : Row → String) (N : List Row) (r : Row) (k : String) :
    r ∈ groupRows key N k ↔ r ∈ N ∧ key r = k := by
  unfold groupRows
  rw [List.mem_filter]
  simp

/-! ## Spec-side label maps

These two definitions follow the spec's words (section 8 of `spec.md`),
to be compared with the key functions embedded from the source. -/

/-- Modelled from the spec: label = "Positive" if `p > 0.1`,
"Negative" if `p < -0.1`, else "Neutral". -/
def specPolarityLabel (p : ℚ) : String :=
  if p > 1/10 then "Positive" else if p < -(1/10) then "Negative" else "Neutral"

/-- Modelled from the spec: label = "Subjective" if `s > 0.5`, else
"Objective". -/
def specSubjectivityLabel (s : ℚ) : String :=
  if s > 1/2 then "Subjective" else "Objective"

theorem mkRat_one_ten : mkRat 1 10 = 1/10 := by
  rw [Rat.mkRat_eq_div]
  norm_num

theorem mkRat_one_two : mkRat 1 2 = 1/2 := by
  rw [Rat.mkRat_eq_div]
  norm_num

/-- The source's polarity key agrees with the spec's polarity label map
on rows whose `polarity` field is a finite number. -/
theorem polarityKey_eq_spec (r : Row) (p : ℚ) (h : getField r "polarity" = JSVal.num p) :
    polarityKey r = specPolarityLabel p := by
  unfold polarityKey specPolarityLabel jsGtNum jsLtNum
  rw [h, mkRat_one_ten]
  simp only [toNumber]
  by_cases h1 : p > 1/10
  · simp [h1]
  · by_cases h2 : p < -(1/10) <;> simp [h1, h2]

/-- The source's subjectivity key agrees with the spec's subjectivity
label map on rows whose `subjectivity` field is a finite number. -/
theorem subjectivityKey_eq_spec (r : Row) (s : ℚ)
    (h : getField r "subjectivity" = JSVal.num s) :
    subjectivityKey r = specSubjectivityLabel s := by
  unfold subjectivityKey specSubjectivityLabel jsGtNum
  rw [h, mkRat_one_two]
  simp only [toNumber]
  by_cases h1 : s > 1/2 <;> simp [h1]

/-! ## Enricher lemmas -/

/-- When the call for a row's text throws or returns unparseable JSON,
the enriched row is the input row with neutral defaults merged on (the
falsy-text skip produces the same defaults, so no case split on the
text is needed). -/
theorem enrichRow_defaults (oracle : JSVal → GeminiOutcome) (r : Row)
    (hfail : oracle (extractText r) = .fail ∨ oracle (extractText r) = .unparseable) :
    enrichRow oracle r = mergeAnalysis r (.num 0) (.num 0) (.arr []) := by
  unfold enrichRow
  rcases hfail with hf | hf <;>
    by_cases ht : truthy (extractText r) <;>
      simp [ht, hf, analyzeResult]

/-- When the extracted text is truthy and the call returns a parsed
verdict, the enriched row carries exactly the returned fields. -/
theorem enrichRow_ok (oracle : JSVal → GeminiOutcome) (r : Row) (p s e : JSVal)
    (ht : truthy (extractText r) = true) (hok : oracle (extractText r) = .ok p s e) :
    enrichRow oracle r = mergeAnalysis r p s e := by
  unfold enrichRow
  simp [ht, hok, analyzeResult]

/-- When the extracted text is falsy the enricher merges the neutral
defaults without consulting the environment. -/
theorem enrichRow_falsy (oracle : JSVal → GeminiOutcome) (r : Row)
    (ht : truthy (extractText r) = false) :
    enrichRow oracle r = mergeAnalysis r (.num 0) (.num 0) (.arr []) := by
  unfold enrichRow
  simp [ht]

/-- Every enriched row is the input row with some values merged onto
the three analysis fields. -/
theorem enrichRow_eq_mergeAnalysis (oracle : JSVal → GeminiOutcome) (r : Row) :
    ∃ p s e, enrichRow oracle r = mergeAnalysis r p s e := by
  by_cases ht : truthy (extractText r) = true
  · cases ho : oracle (extractText r) with
    | fail =>
        exact ⟨.num 0, .num 0, .arr [],
          enrichRow_defaults oracle r (Or.inl ho)⟩
    | unparseable =>
        exact ⟨.num 0, .num 0, .arr [],
          enrichRow_defaults oracle r (Or.inr ho)⟩
    | ok p s e => exact ⟨p, s, e, enrichRow_ok oracle r p s e ht ho⟩
  · exact ⟨.num 0, .num 0, .arr [],
      enrichRow_falsy oracle r (by revert ht; cases truthy (extractText r) <;> simp)⟩

/-- A row with zero polarity and subjectivity normalizes to a valid row
in the "Neutral & Objective" combined class. -/
theorem normalizeB_zeros (x : Row)
    (hp : getField x "polarity" = JSVal.num 0)
    (hs : getField x "subjectivity" = JSVal.num 0) :
    combinedKey (normalizeRowB x) = "Neutral & Objective" ∧
    validRow (normalizeRowB x) = true := by
  have h1 : getField (normalizeRowB x) "polarity" = JSVal.num 0 := by
    rw [getField_normalizeRowB_polarity, hp]
    rfl
  have h2 : getField (normalizeRowB x) "subjectivity" = JSVal.num 0 := by
    rw [getField_normalizeRowB_subjectivity, hs]
    rfl
  constructor
  · unfold combinedKey polarityKey subjectivityKey
    rw [h1, h2]
    decide
  · rw [validRow_normalizeRowB]
    unfold coercibleB
    rw [hp, hs]
    rfl

theorem getD_map_of_lt (f : Row → Row) (l : List Row) (i : ℕ) (h : i < l.length) :
    (l.map f).getD i [] = f (l.getD i []) := by
  induction l generalizing i with
  | nil => cases h
  | cons a t ih =>
      cases i with
      | zero => rfl
      | succ j =>
          rw [List.map_cons, List.getD_cons_succ, List.getD_cons_succ]
          exact ih j (Nat.lt_of_succ_lt_succ h)

theorem getD_mem_of_lt (l : List Row) (i : ℕ) (h : i < l.length) : l.getD i [] ∈ l := by
  induction l generalizing i with
  | nil => cases h
  | cons a t ih =>
      cases i with
      | zero => exact List.mem_cons_self a t
      | succ j => exact List.mem_cons_of_mem a (ih j (Nat.lt_of_succ_lt_succ h))

/-! ## Concrete oracles and rows used by the closed instances -/

/-- An environment in which every HTTP call fails. -/
def failOracle : JSVal → GeminiOutcome := fun _ => .fail

/-- An environment in which every call succeeds with a fixed verdict. -/
def posOracle : JSVal → GeminiOutcome :=
  fun _ => .ok (.num 1) (.num 1) (.arr [.str "Nairobi"])

/-- A one-row dataset whose row has a nonempty `text` field. -/
def oneTextRow : List Row := [[("text", JSVal.str "hi"), ("id", JSVal.num 7)]]

/-! ## Claims -/

/-- **C1** — For every normalized row with numeric polarity `p`, the
polarity label is "Positive" if `p > 0.1`, "Negative" if `p < -0.1`,
and "Neutral" otherwise; in particular `p = 0.1` and `p = -0.1` are
labelled "Neutral". -/
theorem polarity_band_labels (r : Row) (p : ℚ) (h : getField r "polarity" = JSVal.num p) :
    polarityKey r = specPolarityLabel p ∧
    (p = 1/10 → polarityKey r = "Neutral") ∧
    (p = -(1/10) → polarityKey r = "Neutral") := by
  have hmain := polarityKey_eq_spec r p h
  have hb1 : ¬ ((1:ℚ)/10 > 1/10) := by norm_num
  have hb2 : ¬ ((1:ℚ)/10 < -(1/10)) := by norm_num
  have hb3 : ¬ (-((1:ℚ)/10) > 1/10) := by norm_num
  have hb4 : ¬ (-((1:ℚ)/10) < -(1/10)) := by norm_num
  refine ⟨hmain, fun hp => ?_, fun hp => ?_⟩
  · subst hp
    rw [hmain]
    unfold specPolarityLabel
    rw [if_neg hb1, if_neg hb2]
  · subst hp
    rw [hmain]
    unfold specPolarityLabel
    rw [if_neg hb3, if_neg hb4]

theorem polarity_band_labels_witness :
    getField [(("polarity" : String), JSVal.num (mkRat 1 10))] "polarity" =
      JSVal.num (mkRat 1 10) ∧
    (polarityKey [(("polarity" : String), JSVal.num (mkRat 1 10))] =
        specPolarityLabel (mkRat 1 10) ∧
      (mkRat 1 10 = 1/10 →
        polarityKey [(("polarity" : String), JSVal.num (mkRat 1 10))] = "Neutral") ∧
      (mkRat 1 10 = -(1/10) →
        polarityKey [(("polarity" : String), JSVal.num (mkRat 1 10))] = "Neutral")) :=
  ⟨rfl, polarity_band_labels _ (mkRat 1 10) rfl⟩

/-- **C2** — For every normalized row with numeric subjectivity `s`,
the subjectivity label is "Subjective" if `s > 0.5` and "Objective"
otherwise; in particular `s = 0.5` is labelled "Objective". -/
theorem subjectivity_band_labels (r : Row) (s : ℚ)
    (h : getField r "subjectivity" = JSVal.num s) :
    subjectivityKey r = specSubjectivityLabel s ∧
    (s = 1/2 → subjectivityKey r = "Objective") := by
  have hmain := subjectivityKey_eq_spec r s h
  have hb1 : ¬ ((1:ℚ)/2 > 1/2) := by norm_num
  refine ⟨hmain, fun hs => ?_⟩
  subst hs
  rw [hmain]
  unfold specSubjectivityLabel
  rw [if_neg hb1]

theorem subjectivity_band_labels_witness :
    getField [(("subjectivity" : String), JSVal.num (mkRat 1 2))] "subjectivity" =
      JSVal.num (mkRat 1 2) ∧
    (subjectivityKey [(("subjectivity" : String), JSVal.num (mkRat 1 2))] =
        specSubjectivityLabel (mkRat 1 2) ∧
      (mkRat 1 2 = 1/2 →
        subjectivityKey [(("subjectivity" : String), JSVal.num (mkRat 1 2))] = "Objective")) :=
  ⟨rfl, subjectivity_band_labels _ (mkRat 1 2) rfl⟩

/-- The three example rows of the spec, with polarity/subjectivity
pairs `(0.5, 0.8)`, `(-0.3, 0.2)` and `(0.0, 0.6)`. -/
def exampleRows : List Row :=
  [[("polarity", .num (mkRat 1 2)), ("subjectivity", .num (mkRat 4 5))],
   [("polarity", .num (mkRat (-3) 10)), ("subjectivity", .num (mkRat 1 5))],
   [("polarity", .num 0), ("subjectivity", .num (mkRat 3 5))]]

/-- **C7** — The rows with (polarity, subjectivity) pairs `(0.5, 0.8)`,
`(-0.3, 0.2)` and `(0.0, 0.6)` classify respectively as
"Positive & Subjective", "Negative & Objective" and
"Neutral & Subjective", under the combined key directly and through
both full pipelines. -/
theorem combined_label_examples :
    exampleRows.map combinedKey =
      ["Positive & Subjective", "Negative & Objective", "Neutral & Subjective"] ∧
    (normalizedDataB exampleRows).map combinedKey =
      ["Positive & Subjective", "Negative & Objective", "Neutral & Subjective"] ∧
    (normalizedDataA exampleRows).map combinedKey =
      ["Positive & Subjective", "Negative & Objective", "Neutral & Subjective"] := by
  decide

/-- **C3** — When the external classifier call for row `i` fails (the
HTTP call throws or its reply is not parseable JSON), the enricher
still produces an output row at position `i` (the dataset keeps its
length), that row carries polarity `0`, subjectivity `0` and an empty
named-entities list, and the downstream grouper places its normalized
form in the "Neutral & Objective" combined group. -/
theorem classifier_failure_defaults (oracle : JSVal → GeminiOutcome) (data : List Row)
    (i : ℕ) (h : i < data.length)
    (hfail : oracle (extractText (data.getD i [])) = .fail ∨
      oracle (extractText (data.getD i [])) = .unparseable) :
    (processRowsWithGemini oracle data).length = data.length ∧
    getField ((processRowsWithGemini oracle data).getD i []) "polarity" = JSVal.num 0 ∧
    getField ((processRowsWithGemini oracle data).getD i []) "subjectivity" = JSVal.num 0 ∧
    getField ((processRowsWithGemini oracle data).getD i []) "named_entities" = JSVal.arr [] ∧
    combinedKey (normalizeRowB ((processRowsWithGemini oracle data).getD i [])) =
      "Neutral & Objective" ∧
    normalizeRowB ((processRowsWithGemini oracle data).getD i []) ∈
      groupRows combinedKey (normalizedDataB (processRowsWithGemini oracle data))
        "Neutral & Objective" := by
  have hmap : processRowsWithGemini oracle data = data.map (enrichRow oracle) := rfl
  have hget : (processRowsWithGemini oracle data).getD i [] =
      enrichRow oracle (data.getD i []) := by
    rw [hmap]
    exact getD_map_of_lt (enrichRow oracle) data i h
  have hdef : enrichRow oracle (data.getD i []) =
      mergeAnalysis (data.getD i []) (.num 0) (.num 0) (.arr []) :=
    enrichRow_defaults oracle (data.getD i []) hfail
  have hp : getField ((processRowsWithGemini oracle data).getD i []) "polarity" =
      JSVal.num 0 := by
    rw [hget, hdef]
    exact getField_mergeAnalysis_polarity _ _ _ _
  have hs : getField ((processRowsWithGemini oracle data).getD i []) "subjectivity" =
      JSVal.num 0 := by
    rw [hget, hdef]
    exact getField_mergeAnalysis_subjectivity _ _ _ _
  have he : getField ((processRowsWithGemini oracle data).getD i []) "named_entities" =
      JSVal.arr [] := by
    rw [hget, hdef]
    exact getField_mergeAnalysis_entities _ _ _ _
  have hz := normalizeB_zeros _ hp hs
  have hlen : (processRowsWithGemini oracle data).length = data.length := by
    rw [hmap, List.length_map]
  refine ⟨hlen, hp, hs, he, hz.1, ?_⟩
  rw [mem_groupRows_iff]
  refine ⟨?_, hz.1⟩
  unfold normalizedDataB
  rw [List.mem_filter]
  refine ⟨List.mem_map_of_mem normalizeRowB ?_, hz.2⟩
  exact getD_mem_of_lt _ i (by rw [hlen]; exact h)

theorem classifier_failure_defaults_witness :
    0 < oneTextRow.length ∧
    (failOracle (extractText (oneTextRow.getD 0 [])) = .fail ∨
      failOracle (extractText (oneTextRow.getD 0 [])) = .unparseable) ∧
    ((processRowsWithGemini failOracle oneTextRow).length = oneTextRow.length ∧
      getField ((processRowsWithGemini failOracle oneTextRow).getD 0 []) "polarity" =
        JSVal.num 0 ∧
      getField ((processRowsWithGemini failOracle oneTextRow).getD 0 []) "subjectivity" =
        JSVal.num 0 ∧
      getField ((processRowsWithGemini failOracle oneTextRow).getD 0 []) "named_entities" =
        JSVal.arr [] ∧
      combinedKey (normalizeRowB ((processRowsWithGemini failOracle oneTextRow).getD 0 [])) =
        "Neutral & Objective" ∧
      normalizeRowB ((processRowsWithGemini failOracle oneTextRow).getD 0 []) ∈
        groupRows combinedKey (normalizedDataB (processRowsWithGemini failOracle oneTextRow))
          "Neutral & Objective") :=
  ⟨by decide, Or.inl rfl,
    classifier_failure_defaults failOracle oneTextRow 0 (by decide) (Or.inl rfl)⟩

/-- **C8** — The enricher yields exactly one output row per input row,
in the same order (equal length, positional correspondence); each
output row leaves every field other than `polarity`, `subjectivity`
and `named_entities` unchanged; and when the classifier returns a
verdict for the row's extracted text, those three fields carry exactly
the returned values. -/
theorem enricher_row_correspondence (oracle : JSVal → GeminiOutcome) (data : List Row)
    (i : ℕ) (h : i < data.length) :
    (processRowsWithGemini oracle data).length = data.length ∧
    (∀ k, k ≠ "polarity" → k ≠ "subjectivity" → k ≠ "named_entities" →
      getField ((processRowsWithGemini oracle data).getD i []) k =
        getField (data.getD i []) k) ∧
    (∀ p s e, truthy (extractText (data.getD i [])) = true →
      oracle (extractText (data.getD i [])) = .ok p s e →
      getField ((processRowsWithGemini oracle data).getD i []) "polarity" = p ∧
      getField ((processRowsWithGemini oracle data).getD i []) "subjectivity" = s ∧
      getField ((processRowsWithGemini oracle data).getD i []) "named_entities" = e) := by
  have hget : (processRowsWithGemini oracle data).getD i [] =
      enrichRow oracle (data.getD i []) :=
    getD_map_of_lt (enrichRow oracle) data i h
  refine ⟨by rw [show processRowsWithGemini oracle data = data.map (enrichRow oracle) from rfl,
    List.length_map], ?_, ?_⟩
  · intro k h1 h2 h3
    obtain ⟨p, s, e, hm⟩ := enrichRow_eq_mergeAnalysis oracle (data.getD i [])
    rw [hget, hm]
    exact getField_mergeAnalysis_other _ p s e k h1 h2 h3
  · intro p s e ht hok
    rw [hget, enrichRow_ok oracle (data.getD i []) p s e ht hok]
    exact ⟨getField_mergeAnalysis_polarity _ _ _ _, getField_mergeAnalysis_subjectivity _ _ _ _,
      getField_mergeAnalysis_entities _ _ _ _⟩

theorem enricher_row_correspondence_witness :
    0 < oneTextRow.length ∧
    ((processRowsWithGemini posOracle oneTextRow).length = oneTextRow.length ∧
      (∀ k, k ≠ "polarity" → k ≠ "subjectivity" → k ≠ "named_entities" →
        getField ((processRowsWithGemini posOracle oneTextRow).getD 0 []) k =
          getField (oneTextRow.getD 0 []) k) ∧
      (∀ p s e, truthy (extractText (oneTextRow.getD 0 [])) = true →
        posOracle (extractText (oneTextRow.getD 0 [])) = .ok p s e →
        getField ((processRowsWithGemini posOracle oneTextRow).getD 0 []) "polarity" = p ∧
        getField ((processRowsWithGemini posOracle oneTextRow).getD 0 []) "subjectivity" = s ∧
        getField ((processRowsWithGemini posOracle oneTextRow).getD 0 []) "named_entities" = e)) :=
  ⟨by decide, enricher_row_correspondence posOracle oneTextRow 0 (by decide)⟩

/-- **C10** — A row whose extracted text is missing or empty (the
fallback chain yields `''`) is enriched with polarity `0`,
subjectivity `0` and an empty named-entities list, identically under
every oracle — the classifier is never consulted — and its normalized
form classifies as "Neutral & Objective". -/
theorem empty_text_skips_classifier (oracle oracle2 : JSVal → GeminiOutcome) (r : Row)
    (h : extractText r = JSVal.str "") :
    enrichRow oracle r = mergeAnalysis r (.num 0) (.num 0) (.arr []) ∧
    enrichRow oracle r = enrichRow oracle2 r ∧
    getField (enrichRow oracle r) "polarity" = JSVal.num 0 ∧
    getField (enrichRow oracle r) "subjectivity" = JSVal.num 0 ∧
    getField (enrichRow oracle r) "named_entities" = JSVal.arr [] ∧
    combinedKey (normalizeRowB (enrichRow oracle r)) = "Neutral & Objective" ∧
    validRow (normalizeRowB (enrichRow oracle r)) = true := by
  have hskip : ∀ og : JSVal → GeminiOutcome,
      enrichRow og r = mergeAnalysis r (.num 0) (.num 0) (.arr []) := by
    intro og
    refine enrichRow_falsy og r ?_
    rw [h]
    rfl
  have hp : getField (enrichRow oracle r) "polarity" = JSVal.num 0 := by
    rw [hskip oracle]
    exact getField_mergeAnalysis_polarity _ _ _ _
  have hs : getField (enrichRow oracle r) "subjectivity" = JSVal.num 0 := by
    rw [hskip oracle]
    exact getField_mergeAnalysis_subjectivity _ _ _ _
  have hz := normalizeB_zeros _ hp hs
  refine ⟨hskip oracle, by rw [hskip oracle, hskip oracle2], hp, hs, ?_, hz.1, hz.2⟩
  rw [hskip oracle]
  exact getField_mergeAnalysis_entities _ _ _ _

/-- A dataset mixing numerically-valid rows with rows whose values do
not coerce to numbers. -/
def mixedRows : List Row :=
  [[("polarity", JSVal.num 1), ("subjectivity", JSVal.num 0)],
   [("polarity", JSVal.nan), ("subjectivity", JSVal.num 0)],
   [("polarity", JSVal.num 0), ("subjectivity", JSVal.undef)]]

/-- **C4** — Rows whose polarity or subjectivity does not coerce to a
number are dropped by normalization in both pipelines: the normalized
data is exactly the image of the coercible rows (so it is excluded
from every group, each of which filters the normalized data), the
total counts only coercible rows, every surviving row is numeric in
both columns, and non-coercible rows never make processing fail — with
the required columns present the result is still the grouped record. -/
theorem non_numeric_rows_excluded (d : List Row) :
    normalizedDataB d = (d.filter coercibleB).map normalizeRowB ∧
    normalizedDataA d = (d.filter coercibleA).map normalizeRowA ∧
    (normalizedDataB d).length = (d.filter coercibleB).length ∧
    (normalizedDataA d).length = (d.filter coercibleA).length ∧
    (∀ r ∈ normalizedDataB d,
      (∃ p : ℚ, getField r "polarity" = JSVal.num p) ∧
      (∃ s : ℚ, getField r "subjectivity" = JSVal.num s)) ∧
    (∀ key : Row → String, ∀ k : String, ∀ r : Row,
      r ∈ groupRows key (normalizedDataB d) k → r ∈ normalizedDataB d) ∧
    (∀ key : Row → String, ∀ k : String, ∀ r : Row,
      r ∈ groupRows key (normalizedDataA d) k → r ∈ normalizedDataA d) ∧
    (d.isEmpty = false → hasPolarityB d = true → hasSubjectivityB d = true →
      processedDataB d = some (.ok (d.filter coercibleB).length (normalizedDataB d))) ∧
    (d.isEmpty = false → hasPolarityA d = true → hasSubjectivityA d = true →
      processedDataA d = some (.ok (d.filter coercibleA).length (normalizedDataA d))) := by
  refine ⟨normalizedDataB_eq_filter_map d, normalizedDataA_eq_filter_map d, ?_, ?_,
    fun r hr => mem_normalizedDataB_numeric d r hr,
    fun key k r hr => ((mem_groupRows_iff key _ r k).mp hr).1,
    fun key k r hr => ((mem_groupRows_iff key _ r k).mp hr).1, ?_, ?_⟩
  · rw [normalizedDataB_eq_filter_map, List.length_map]
  · rw [normalizedDataA_eq_filter_map, List.length_map]
  · intro hne hp hs
    unfold processedDataB
    rw [hne, hp, hs]
    simp only [Bool.not_true, Bool.or_self, if_false]
    rw [normalizedDataB_eq_filter_map, List.length_map, ← normalizedDataB_eq_filter_map]
    simp
  · intro hne hp hs
    unfold processedDataA
    rw [hne, hp, hs]
    simp only [Bool.not_true, Bool.or_self, if_false]
    rw [normalizedDataA_eq_filter_map, List.length_map, ← normalizedDataA_eq_filter_map]
    simp

theorem non_numeric_rows_excluded_witness :
    mixedRows.isEmpty = false ∧ hasPolarityB mixedRows = true ∧
    hasSubjectivityB mixedRows = true ∧
    processedDataB mixedRows =
      some (.ok (mixedRows.filter coercibleB).length (normalizedDataB mixedRows)) :=
  ⟨rfl, rfl, rfl,
    (non_numeric_rows_excluded mixedRows).2.2.2.2.2.2.2.1 rfl rfl rfl⟩

/-- The class sizes of a `groupBy` under the shared keys are a
partition of the grouped list. -/
theorem partition_sums (N : List Row) :
    (groupRows polarityKey N "Positive").length +
      (groupRows polarityKey N "Negative").length +
      (groupRows polarityKey N "Neutral").length = N.length ∧
    (groupRows subjectivityKey N "Subjective").length +
      (groupRows subjectivityKey N "Objective").length = N.length ∧
    (combinedLabels.map fun k => (groupRows combinedKey N k).length).sum = N.length := by
  have h1 := sum_groupRows_length polarityKey ["Positive", "Negative", "Neutral"] N
    (by decide) (fun r _ => polarityKey_mem r)
  have h2 := sum_groupRows_length subjectivityKey ["Subjective", "Objective"] N
    (by decide) (fun r _ => subjectivityKey_mem r)
  have h3 := sum_groupRows_length combinedKey combinedLabels N
    (by decide) (fun r _ => combinedKey_mem r)
  simp only [List.map_cons, List.map_nil, List.sum_cons, List.sum_nil] at h1 h2
  refine ⟨by omega, by omega, h3⟩

/-- Every member of a list belongs to exactly one `groupBy` class. -/
theorem existsUnique_groupRows (key : Row → String) (N : List Row) (r : Row) (hr : r ∈ N) :
    ∃! k, r ∈ groupRows key N k := by
  refine ⟨key r, (mem_groupRows_iff key N r (key r)).mpr ⟨hr, rfl⟩, fun k hk => ?_⟩
  exact ((mem_groupRows_iff key N r k).mp hk).2.symm

/-- **C5** — The grouping partitions the numerically-valid rows: each
normalized row lies in exactly one polarity, one subjectivity and one
combined group, and the group sizes sum to the total, for both
pipelines. -/
theorem grouping_is_partition (d : List Row) :
    ((groupRows polarityKey (normalizedDataB d) "Positive").length +
      (groupRows polarityKey (normalizedDataB d) "Negative").length +
      (groupRows polarityKey (normalizedDataB d) "Neutral").length =
      (normalizedDataB d).length) ∧
    ((groupRows subjectivityKey (normalizedDataB d) "Subjective").length +
      (groupRows subjectivityKey (normalizedDataB d) "Objective").length =
      (normalizedDataB d).length) ∧
    ((combinedLabels.map fun k => (groupRows combinedKey (normalizedDataB d) k).length).sum =
      (normalizedDataB d).length) ∧
    (∀ r ∈ normalizedDataB d, ∃! k, r ∈ groupRows polarityKey (normalizedDataB d) k) ∧
    (∀ r ∈ normalizedDataB d, ∃! k, r ∈ groupRows subjectivityKey (normalizedDataB d) k) ∧
    (∀ r ∈ normalizedDataB d, ∃! k, r ∈ groupRows combinedKey (normalizedDataB d) k) ∧
    ((groupRows polarityKey (normalizedDataA d) "Positive").length +
      (groupRows polarityKey (normalizedDataA d) "Negative").length +
      (groupRows polarityKey (normalizedDataA d) "Neutral").length =
      (normalizedDataA d).length) ∧
    ((groupRows subjectivityKey (normalizedDataA d) "Subjective").length +
      (groupRows subjectivityKey (normalizedDataA d) "Objective").length =
      (normalizedDataA d).length) ∧
    ((combinedLabels.map fun k => (groupRows combinedKey (normalizedDataA d) k).length).sum =
      (normalizedDataA d).length) :=
  ⟨(partition_sums _).1, (partition_sums _).2.1, (partition_sums _).2.2,
    fun r hr => existsUnique_groupRows polarityKey _ r hr,
    fun r hr => existsUnique_groupRows subjectivityKey _ r hr,
    fun r hr => existsUnique_groupRows combinedKey _ r hr,
    (partition_sums _).1, (partition_sums _).2.1, (partition_sums _).2.2⟩

theorem grouping_is_partition_witness :
    (normalizeRowB [(("polarity" : String), JSVal.num 1), ("subjectivity", JSVal.num 0)] ∈
      normalizedDataB mixedRows) ∧
    (∃! k, normalizeRowB [(("polarity" : String), JSVal.num 1), ("subjectivity", JSVal.num 0)] ∈
      groupRows polarityKey (normalizedDataB mixedRows) k) :=
  ⟨by decide, (grouping_is_partition mixedRows).2.2.2.1 _ (by decide)⟩

theorem empty_text_skips_classifier_witness :
    extractText [(("text" : String), JSVal.str "")] = JSVal.str "" ∧
    (enrichRow failOracle [(("text" : String), JSVal.str "")] =
        mergeAnalysis [(("text" : String), JSVal.str "")] (.num 0) (.num 0) (.arr []) ∧
      enrichRow failOracle [(("text" : String), JSVal.str "")] =
        enrichRow posOracle [(("text" : String), JSVal.str "")] ∧
      getField (enrichRow failOracle [(("text" : String), JSVal.str "")]) "polarity" =
        JSVal.num 0 ∧
      getField (enrichRow failOracle [(("text" : String), JSVal.str "")]) "subjectivity" =
        JSVal.num 0 ∧
      getField (enrichRow failOracle [(("text" : String), JSVal.str "")]) "named_entities" =
        JSVal.arr [] ∧
      combinedKey (normalizeRowB (enrichRow failOracle [(("text" : String), JSVal.str "")])) =
        "Neutral & Objective" ∧
      validRow (normalizeRowB (enrichRow failOracle [(("text" : String), JSVal.str "")])) =
        true) :=
  ⟨rfl, empty_text_skips_classifier failOracle posOracle _ rfl⟩


/-! ## C9: the missing-columns error -/

theorem processed_shape (b1 b2 : Bool) (t : Nat) (raw : List Row) :
    ((if !b1 || !b2 then some (ProcResult.err missingColumnsMsg) else some (.ok t raw)) =
        some (ProcResult.err missingColumnsMsg) ↔ (b1 = false ∨ b2 = false)) ∧
    ((if !b1 || !b2 then some (ProcResult.err missingColumnsMsg) else some (.ok t raw)) =
        some (ProcResult.err missingColumnsMsg) ∨
      (if !b1 || !b2 then some (ProcResult.err missingColumnsMsg) else some (.ok t raw)) =
        some (.ok t raw)) := by
  cases b1 <;> cases b2 <;> simp [missingColumnsMsg]

theorem isEmpty_false_of_ne_nil (d : List Row) (h : d ≠ []) : d.isEmpty = false := by
  cases d with
  | nil => exact absurd rfl h
  | cons a t => rfl

/-- **C9** — For non-empty data, each pipeline returns the
"CSV must contain polarity and subjectivity columns" error record (and
hence no groups) exactly when no row defines a polarity column or no
row defines a subjectivity column (for `App.jsx` a column counts in
either capitalization); otherwise it returns the grouped record. -/
theorem missing_columns_error_iff (d : List Row) (hne : d ≠ []) :
    (processedDataB d = some (.err missingColumnsMsg) ↔
      (∀ r ∈ d, isUndef (getField r "polarity") = true) ∨
      (∀ r ∈ d, isUndef (getField r "subjectivity") = true)) ∧
    (processedDataB d = some (.err missingColumnsMsg) ∨
      processedDataB d = some (.ok (normalizedDataB d).length (normalizedDataB d))) ∧
    (processedDataA d = some (.err missingColumnsMsg) ↔
      (∀ r ∈ d, isUndef (getField r "polarity") = true ∧
        isUndef (getField r "Polarity") = true) ∨
      (∀ r ∈ d, isUndef (getField r "subjectivity") = true ∧
        isUndef (getField r "Subjectivity") = true)) ∧
    (processedDataA d = some (.err missingColumnsMsg) ∨
      processedDataA d = some (.ok (normalizedDataA d).length (normalizedDataA d))) := by
  have hie := isEmpty_false_of_ne_nil d hne
  have hBform : processedDataB d =
      (if !hasPolarityB d || !hasSubjectivityB d then some (ProcResult.err missingColumnsMsg)
        else some (.ok (normalizedDataB d).length (normalizedDataB d))) := by
    unfold processedDataB
    rw [hie]
    simp
  have hAform : processedDataA d =
      (if !hasPolarityA d || !hasSubjectivityA d then some (ProcResult.err missingColumnsMsg)
        else some (.ok (normalizedDataA d).length (normalizedDataA d))) := by
    unfold processedDataA
    rw [hie]
    simp
  have hBpol : hasPolarityB d = false ↔
      ∀ r ∈ d, isUndef (getField r "polarity") = true := by
    simp [hasPolarityB, List.any_eq_false]
  have hBsub : hasSubjectivityB d = false ↔
      ∀ r ∈ d, isUndef (getField r "subjectivity") = true := by
    simp [hasSubjectivityB, List.any_eq_false]
  have hApol : hasPolarityA d = false ↔
      ∀ r ∈ d, isUndef (getField r "polarity") = true ∧
        isUndef (getField r "Polarity") = true := by
    simp [hasPolarityA, List.any_eq_false]
  have hAsub : hasSubjectivityA d = false ↔
      ∀ r ∈ d, isUndef (getField r "subjectivity") = true ∧
        isUndef (getField r "Subjectivity") = true := by
    simp [hasSubjectivityA, List.any_eq_false]
  refine ⟨?_, ?_, ?_, ?_⟩
  · rw [hBform, (processed_shape _ _ _ _).1]
    exact or_congr hBpol hBsub
  · rw [hBform]
    exact (processed_shape _ _ _ _).2
  · rw [hAform, (processed_shape _ _ _ _).1]
    exact or_congr hApol hAsub
  · rw [hAform]
    exact (processed_shape _ _ _ _).2

/-- A one-row dataset with a polarity column but no subjectivity. -/
def polOnlyRow : List Row := [[("polarity", JSVal.num 1)]]

theorem missing_columns_error_iff_witness :
    polOnlyRow ≠ [] ∧
    ((processedDataB polOnlyRow = some (.err missingColumnsMsg) ↔
        (∀ r ∈ polOnlyRow, isUndef (getField r "polarity") = true) ∨
        (∀ r ∈ polOnlyRow, isUndef (getField r "subjectivity") = true)) ∧
      (processedDataB polOnlyRow = some (.err missingColumnsMsg) ∨
        processedDataB polOnlyRow =
          some (.ok (normalizedDataB polOnlyRow).length (normalizedDataB polOnlyRow))) ∧
      (processedDataA polOnlyRow = some (.err missingColumnsMsg) ↔
        (∀ r ∈ polOnlyRow, isUndef (getField r "polarity") = true ∧
          isUndef (getField r "Polarity") = true) ∨
        (∀ r ∈ polOnlyRow, isUndef (getField r "subjectivity") = true ∧
          isUndef (getField r "Subjectivity") = true)) ∧
      (processedDataA polOnlyRow = some (.err missingColumnsMsg) ∨
        processedDataA polOnlyRow =
          some (.ok (normalizedDataA polOnlyRow).length (normalizedDataA polOnlyRow)))) :=
  ⟨by decide, missing_columns_error_iff polOnlyRow (by decide)⟩

/-! ## C6: the two pipelines are not equivalent as claimed -/

/-- A dataset on which the duplicated pipelines disagree: the lowercase
`polarity` is defined but falsy (`0`), and a truthy capitalized
`Polarity` is present, so `App.jsx` falls back to `Polarity: 1` while
the `part_001` variant keeps `Number(0)`. -/
def cexData : List Row :=
  [[("polarity", JSVal.num 0), ("Polarity", JSVal.num 1), ("subjectivity", JSVal.num 1)]]

/-- **C6 (counterexample)** — On `cexData` every row defines both
lowercase `polarity` and `subjectivity`, yet the two pipelines put the
row into different polarity groups and produce different records. -/
theorem pipelines_differ_on_falsy_polarity :
    (∀ r ∈ cexData, isUndef (getField r "polarity") = false ∧
      isUndef (getField r "subjectivity") = false) ∧
    groupRows polarityKey (normalizedDataA cexData) "Positive" ≠
      groupRows polarityKey (normalizedDataB cexData) "Positive" ∧
    processedDataA cexData ≠ processedDataB cexData := by
  decide

theorem isNumV_iff (v : JSVal) : isNumV v = true ↔ ∃ q, v = JSVal.num q := by
  cases v <;> simp [isNumV]

/-- **C6 (amended)** — The two pipelines compute identical
`processedData` records on every dataset in which each row's lowercase
`polarity` and `subjectivity` hold finite numbers and the capitalized
`Polarity` and `Subjectivity` fields are undefined. -/
theorem pipelines_agree_on_numeric_lowercase (d : List Row)
    (h : ∀ r ∈ d, isNumV (getField r "polarity") = true ∧
      isNumV (getField r "subjectivity") = true ∧
      getField r "Polarity" = JSVal.undef ∧ getField r "Subjectivity" = JSVal.undef) :
    processedDataA d = processedDataB d := by
  have hrow : ∀ r ∈ d, normalizeRowA r = normalizeRowB r := by
    intro r hr
    obtain ⟨hp, hs, hP, hS⟩ := h r hr
    obtain ⟨p, hp2⟩ := (isNumV_iff _).mp hp
    obtain ⟨s, hs2⟩ := (isNumV_iff _).mp hs
    have hpolval : numOfOpt (toNumber (polValueA r)) =
        numOfOpt (toNumber (getField r "polarity")) := by
      unfold polValueA
      rw [hp2, hP]
      by_cases hz : p = 0
      · subst hz
        simp [jsOr, truthy]
      · simp [jsOr, truthy, hz]
    have hsubval : numOfOpt (toNumber (subValueA r)) =
        numOfOpt (toNumber (getField r "subjectivity")) := by
      unfold subValueA
      rw [hs2, hS]
      by_cases hz : s = 0
      · subst hz
        simp [jsOr, truthy]
      · simp [jsOr, truthy, hz]
    unfold normalizeRowA normalizeRowB
    rw [hpolval, hsubval]
  cases d with
  | nil => rfl
  | cons r0 rest =>
      obtain ⟨hp0, hs0, _, _⟩ := h r0 (List.mem_cons_self r0 rest)
      obtain ⟨p0, hp02⟩ := (isNumV_iff _).mp hp0
      obtain ⟨s0, hs02⟩ := (isNumV_iff _).mp hs0
      have hpA : hasPolarityA (r0 :: rest) = true := by
        unfold hasPolarityA
        rw [List.any_eq_true]
        exact ⟨r0, List.mem_cons_self _ _, by simp [hp02, isUndef]⟩
      have hpB : hasPolarityB (r0 :: rest) = true := by
        unfold hasPolarityB
        rw [List.any_eq_true]
        exact ⟨r0, List.mem_cons_self _ _, by simp [hp02, isUndef]⟩
      have hsA : hasSubjectivityA (r0 :: rest) = true := by
        unfold hasSubjectivityA
        rw [List.any_eq_true]
        exact ⟨r0, List.mem_cons_self _ _, by simp [hs02, isUndef]⟩
      have hsB : hasSubjectivityB (r0 :: rest) = true := by
        unfold hasSubjectivityB
        rw [List.any_eq_true]
        exact ⟨r0, List.mem_cons_self _ _, by simp [hs02, isUndef]⟩
      have hnorm : normalizedDataA (r0 :: rest) = normalizedDataB (r0 :: rest) := by
        unfold normalizedDataA normalizedDataB
        rw [List.map_congr_left hrow]
      unfold processedDataA processedDataB
      rw [hpA, hpB, hsA, hsB, hnorm]

/-- A dataset satisfying the amended hypothesis. -/
def lowercaseNumericRows : List Row :=
  [[("polarity", JSVal.num (mkRat 1 2)), ("subjectivity", JSVal.num 1)],
   [("polarity", JSVal.num 0), ("subjectivity", JSVal.num 0)]]

theorem pipelines_agree_on_numeric_lowercase_witness :
    (∀ r ∈ lowercaseNumericRows, isNumV (getField r "polarity") = true ∧
      isNumV (getField r "subjectivity") = true ∧
      getField r "Polarity" = JSVal.undef ∧ getField r "Subjectivity" = JSVal.undef) ∧
    processedDataA lowercaseNumericRows = processedDataB lowercaseNumericRows :=
  ⟨by decide, pipelines_agree_on_numeric_lowercase lowercaseNumericRows (by decide)⟩

end SentimentHub
